import Mathlib

/-!
Verification of the ResonanceAI audio-analysis core.

This file gives a shallow embedding of the signal-processing and scoring code
in src/src/utils/audioAnalysis.ts and src/src/utils/voiceCloning.ts, and proves
or refutes the frozen specification claims about it.

Embedding conventions:
* JavaScript numbers are modelled by exact rationals.  Transcendental Math
  functions (cos, sin, sqrt, log, log10, pow) have no exact rational form, so
  they are abstracted into a record of function parameters (RealOps); every
  claim proved over the rational embedding holds for every choice of these
  functions.  cosTau x stands for cos (2 * pi * x) and sinTau x for
  sin (2 * pi * x), so the source expression cos ((2 * PI * i) / (L - 1))
  becomes cosTau (i / (L - 1)).
* Math.floor of an exact ratio with a positive divisor is integer floor
  division, which for a positive divisor is Int division.
* Division by zero yields 0 in the rational embedding where JavaScript yields
  NaN or Infinity; each place where this can happen is noted at the definition.
* Math.random() draws are made explicit: a function consuming k draws takes
  them as parameters (a single rational, or a stream of rationals indexed by
  the order of the draws).
* For the mel-filterbank monotonicity claim the filterbank is additionally
  embedded over the real numbers (suffix R), so that the actual logarithm and
  power functions of the source appear in the statement.
-/

/-- Abstraction of the transcendental Math functions used by the source.
cosTau x models cos (2 * pi * x); sinTau x models sin (2 * pi * x);
exp10 x models pow 10 x. -/
structure RealOps where
  cosTau : ℚ → ℚ
  sinTau : ℚ → ℚ
  sqrt : ℚ → ℚ
  log : ℚ → ℚ
  log10 : ℚ → ℚ
  exp10 : ℚ → ℚ

/-- A concrete RealOps instance (all functions constantly 0), used to
instantiate universally quantified theorems on concrete inputs. -/
def trivOps : RealOps :=
  ⟨fun _ => 0, fun _ => 0, fun _ => 0, fun _ => 0, fun _ => 0, fun _ => 0⟩

/-- audioAnalysis.ts applyHammingWindow (lines 145-151):
windowed[i] = frame[i] * (0.54 - 0.46 * cos((2 pi i)/(L-1))).
For L = 1 the source divides by zero (NaN in JavaScript, 0 here); frames of
length 1 only arise from sub-frame-length inputs, where the windowed values
are discarded because the spectrum is empty. -/
def applyHammingWindow (ops : RealOps) (frame : List ℚ) : List ℚ :=
  (List.range frame.length).map (fun i =>
    frame.getD i 0 * (0.54 - 0.46 * ops.cosTau ((i : ℚ) / ((frame.length : ℚ) - 1))))

/-- audioAnalysis.ts fft bit-reversal inner while loop (lines 178-183):
while (m >= 1 && j >= m) { j -= m; m >>= 1 }; j += m.  Returns the final j. -/
def bitrevStep (j m : ℕ) : ℕ :=
  if h : 1 ≤ m ∧ m ≤ j then bitrevStep (j - m) (m / 2) else j + m
termination_by m
decreasing_by
  exact Nat.div_lt_self (by omega) (by omega)

/-- Swap entries a and b of a list (the JavaScript destructuring swap). -/
def swapAt (l : List ℚ) (a b : ℕ) : List ℚ :=
  (l.set a (l.getD b 0)).set b (l.getD a 0)

/-- audioAnalysis.ts fft bit-reversal permutation pass (lines 173-184).
The state carries the two arrays and the running index j. -/
def bitrevFold (n : ℕ) (real imag : List ℚ) : List ℚ × List ℚ :=
  let st := (List.range n).foldl
    (fun st i =>
      let re := st.1
      let im := st.2.1
      let j := st.2.2
      let re2 := if i < j then swapAt re i j else re
      let im2 := if i < j then swapAt im i j else im
      (re2, im2, bitrevStep j (n / 2)))
    (real, imag, 0)
  (st.1, st.2.1)

/-- audioAnalysis.ts fft inner butterfly loop (lines 192-210) for one block
starting at iBase, with twiddle recurrence state (wReal, wImag) starting at
(1, 0). -/
def butterflyPass (wlenR wlenI : ℚ) (halfLen iBase : ℕ)
    (st : List ℚ × List ℚ) : List ℚ × List ℚ :=
  let r := (List.range halfLen).foldl
    (fun acc j =>
      let re := acc.1
      let im := acc.2.1
      let wR := acc.2.2.1
      let wI := acc.2.2.2
      let a := iBase + j
      let b := iBase + j + halfLen
      let tR := wR * re.getD b 0 - wI * im.getD b 0
      let tI := wR * im.getD b 0 + wI * re.getD b 0
      let re2 := (re.set b (re.getD a 0 - tR)).set a (re.getD a 0 + tR)
      let im2 := (im.set b (im.getD a 0 - tI)).set a (im.getD a 0 + tI)
      (re2, im2, wR * wlenR - wI * wlenI, wR * wlenI + wI * wlenR))
    (st.1, st.2, 1, 0)
  (r.1, r.2.1)

/-- audioAnalysis.ts fft butterfly stages (lines 186-211).  The source loop
for (len = 2; len <= n; len <<= 1) runs over len = 2 ^ (s + 1) for
s < log2 n; the per-stage angle -2 pi / len gives twiddle factors
cosTau (-1 / len) and sinTau (-1 / len). -/
def fftStages (ops : RealOps) (n : ℕ) (real imag : List ℚ) : List ℚ × List ℚ :=
  (List.range (Nat.log2 n)).foldl
    (fun st s =>
      let len : ℕ := 2 ^ (s + 1)
      let halfLen := len / 2
      let wlenR := ops.cosTau (-(1 : ℚ) / (len : ℚ))
      let wlenI := ops.sinTau (-(1 : ℚ) / (len : ℚ))
      (List.range ((n + len - 1) / len)).foldl
        (fun st2 blk => butterflyPass wlenR wlenI halfLen (blk * len) st2) st)
    (real, imag)

/-- audioAnalysis.ts fft (lines 169-212): returns the input unchanged for
n <= 1, otherwise bit-reversal permutation followed by the butterfly stages. -/
def fft (ops : RealOps) (real imag : List ℚ) : List ℚ × List ℚ :=
  let n := real.length
  if n ≤ 1 then (real, imag)
  else
    let p := bitrevFold n real imag
    fftStages ops n p.1 p.2

/-- audioAnalysis.ts computeSpectrum (lines 153-167): FFT of the frame with a
zero imaginary part, then sqrt(re^2 + im^2) over the first n / 2 bins. -/
def computeSpectrum (ops : RealOps) (frame : List ℚ) : List ℚ :=
  let n := frame.length
  let p := fft ops frame (List.replicate n 0)
  (List.range (n / 2)).map (fun i =>
    ops.sqrt (p.1.getD i 0 * p.1.getD i 0 + p.2.getD i 0 * p.2.getD i 0))

/-- The bin-to-frequency mapping binToHz defined identically inside
applyMelFilterbank (line 231) and findSpectralPeaks (line 292):
bin * sampleRate / (spectrum.length * 2). -/
def binToHzQ (len : ℕ) (sr : ℚ) (bin : ℕ) : ℚ :=
  (bin : ℚ) * sr / ((len : ℚ) * 2)

/-- audioAnalysis.ts hzToMel (line 218): 2595 * log10 (1 + hz / 700). -/
def hzToMelQ (ops : RealOps) (hz : ℚ) : ℚ :=
  2595 * ops.log10 (1 + hz / 700)

/-- audioAnalysis.ts melToHz (line 219): 700 * (10 ^ (mel / 2595) - 1). -/
def melToHzQ (ops : RealOps) (mel : ℚ) : ℚ :=
  700 * (ops.exp10 (mel / 2595) - 1)

/-- audioAnalysis.ts mel filter edge points (lines 221-229):
numFilters + 2 = 28 points evenly spaced in mel space between hzToMel 0 and
hzToMel (sampleRate / 2), converted back to Hz. -/
def melPointsQ (ops : RealOps) (sr : ℚ) (i : ℕ) : ℚ :=
  melToHzQ ops (hzToMelQ ops 0 + ((i : ℚ) / (26 + 1)) * (hzToMelQ ops (sr / 2) - hzToMelQ ops 0))

/-- audioAnalysis.ts triangular filter weight (lines 237-243): inside the
support [melPoints i, melPoints (i+2)] the weight rises linearly to 1 at
melPoints (i+1) and falls linearly back to 0; outside the support the bin
contributes nothing (weight 0). -/
def melWeightQ (ops : RealOps) (sr : ℚ) (i : ℕ) (freq : ℚ) : ℚ :=
  if melPointsQ ops sr i ≤ freq ∧ freq ≤ melPointsQ ops sr (i + 2) then
    if freq < melPointsQ ops sr (i + 1) then
      (freq - melPointsQ ops sr i) / (melPointsQ ops sr (i + 1) - melPointsQ ops sr i)
    else
      (melPointsQ ops sr (i + 2) - freq) / (melPointsQ ops sr (i + 2) - melPointsQ ops sr (i + 1))
  else 0

/-- audioAnalysis.ts applyMelFilterbank (lines 214-251): 26 filters, each the
log of the weighted bin sum plus the 1e-10 floor. -/
def applyMelFilterbank (ops : RealOps) (spectrum : List ℚ) (sr : ℚ) : List ℚ :=
  (List.range 26).map (fun i =>
    ops.log ((((List.range spectrum.length).map
      (fun j => spectrum.getD j 0 * melWeightQ ops sr i (binToHzQ spectrum.length sr j))).sum) + 1e-10))

/-- audioAnalysis.ts computeDCT (lines 253-266):
mfcc[k] = sum over n of mel[n] * cos (pi * k * (n + 0.5) / N), written with
cosTau (k * (n + 0.5) / (2 * N)). -/
def computeDCT (ops : RealOps) (melSpectrum : List ℚ) (numCoefficients : ℕ) : List ℚ :=
  (List.range numCoefficients).map (fun k =>
    ((List.range melSpectrum.length).map (fun n =>
      melSpectrum.getD n 0 *
        ops.cosTau ((k : ℚ) * ((n : ℚ) + 0.5) / (2 * (melSpectrum.length : ℚ))))).sum)

/-- audioAnalysis.ts autocorrelation sum (lines 276-279):
sum over i < frame.length - lag of frame[i] * frame[i + lag]. -/
def corrAt (frame : List ℚ) (lag : ℕ) : ℚ :=
  ((List.range (frame.length - lag)).map (fun i => frame.getD i 0 * frame.getD (i + lag) 0)).sum

/-- audioAnalysis.ts pitch lag search range (lines 269-275): the lags visited
by for (lag = minLag; lag < maxLag && lag < frame.length / 2; lag++), with
minLag = floor (sampleRate / 500) and maxLag = floor (sampleRate / 50).
lag < frame.length / 2 over the rationals is 2 * lag < frame.length. -/
def lagList (frame : List ℚ) (sr : ℚ) : List ℕ :=
  (List.range (Int.toNat ⌊sr / 50⌋)).filter
    (fun lag => decide (⌊sr / 500⌋ ≤ (lag : ℤ) ∧ 2 * lag < frame.length))

/-- audioAnalysis.ts correlation maximisation fold (lines 272-285): state
(maxCorrelation, bestLag) starting at (0, 0), updated when the strict
comparison correlation > maxCorrelation holds. -/
def pitchFold (frame : List ℚ) (sr : ℚ) : ℚ × ℕ :=
  (lagList frame sr).foldl
    (fun st lag => if st.1 < corrAt frame lag then (corrAt frame lag, lag) else st)
    (0, 0)

/-- The bestLag tracked by autoCorrelationPitch. -/
def bestLagOf (frame : List ℚ) (sr : ℚ) : ℕ :=
  (pitchFold frame sr).2

/-- audioAnalysis.ts autoCorrelationPitch (lines 268-288):
bestLag > 0 ? sampleRate / bestLag : 0. -/
def autoCorrelationPitch (frame : List ℚ) (sr : ℚ) : ℚ :=
  if 0 < bestLagOf frame sr then sr / (bestLagOf frame sr : ℚ) else 0

/-- audioAnalysis.ts local-maximum test (line 295) for an interior bin i:
spectrum[i] > spectrum[i-1] and spectrum[i] > spectrum[i+1]. -/
def isPeakBin (s : List ℚ) (i : ℕ) : Bool :=
  decide (0 < i ∧ i + 1 < s.length ∧
    s.getD (i - 1) 0 < s.getD i 0 ∧ s.getD (i + 1) 0 < s.getD i 0)

/-- audioAnalysis.ts findSpectralPeaks (lines 290-304): frequencies of
interior local maxima lying strictly between 200 and 5000 Hz, sorted
descending (the (a, b) => b - a comparator). -/
def findSpectralPeaks (s : List ℚ) (sr : ℚ) : List ℚ :=
  List.insertionSort (fun a b => b ≤ a)
    ((((List.range s.length).filter (isPeakBin s)).map (binToHzQ s.length sr)).filter
      (fun f => decide (200 < f ∧ f < 5000)))

/-- audioAnalysis.ts calculateSpectralCentroid bin frequency (line 75):
(i * sampleRate) / (frameSize * 2) with the constant frameSize = 2048, the
time-domain frame size (not the spectrum length). -/
def centroidFrequency (sr : ℚ) (i : ℕ) : ℚ :=
  (i : ℚ) * sr / (2048 * 2)

/-- audioAnalysis.ts calculateSpectralCentroid accumulation and guard
(lines 71-80): numerator / denominator when denominator > 0, else 0. -/
def centroidFromSpectrum (s : List ℚ) (sr : ℚ) : ℚ :=
  let numerator := ((List.range s.length).map (fun i => centroidFrequency sr i * s.getD i 0)).sum
  let denominator := ((List.range s.length).map (fun i => s.getD i 0)).sum
  if 0 < denominator then numerator / denominator else 0

/-- audioAnalysis.ts calculateSpectralCentroid (lines 63-81): spectrum of the
windowed first 2048 samples, then the guarded centroid ratio. -/
def calculateSpectralCentroid (ops : RealOps) (data : List ℚ) (sr : ℚ) : ℚ :=
  centroidFromSpectrum (computeSpectrum ops (applyHammingWindow ops (data.take 2048))) sr

/-- audioAnalysis.ts calculateZeroCrossingRate (lines 83-95): sign changes
between consecutive samples over the whole signal, divided by the sample
count.  For an empty signal the source divides 0 by 0 (NaN in JavaScript,
0 here). -/
def calculateZeroCrossingRate (data : List ℚ) : ℚ :=
  (((List.range (data.length - 1)).countP (fun k =>
    decide ((0 ≤ data.getD (k + 1) 0 ∧ data.getD k 0 < 0) ∨
            (data.getD (k + 1) 0 < 0 ∧ 0 ≤ data.getD k 0)))) : ℚ) / (data.length : ℚ)

/-- audioAnalysis.ts calculateVariance (lines 306-312): population variance,
returning 0 for an empty list. -/
def calculateVariance (values : List ℚ) : ℚ :=
  if values.length = 0 then 0
  else
    let mean := values.sum / (values.length : ℚ)
    ((values.map (fun v => (v - mean) ^ 2)).sum) / (values.length : ℚ)

/-- audioAnalysis.ts extractMFCC frame count (line 7):
Math.floor ((N - 512) / 256). -/
def numFramesMFCC (n : ℕ) : ℤ :=
  ((n : ℤ) - 512) / 256

/-- Number of frames the extractMFCC loop actually runs (line 11):
i < min (numFrames, 10). -/
def mfccFramesProcessed (n : ℕ) : ℕ :=
  (min (numFramesMFCC n) 10).toNat

/-- audioAnalysis.ts extractMFCC (lines 1-24): per-frame window, spectrum,
mel filterbank and DCT, concatenated and truncated to 40 values. -/
def extractMFCC (ops : RealOps) (data : List ℚ) (sr : ℚ) (numCoefficients : ℕ) : List ℚ :=
  ((List.range (mfccFramesProcessed data.length)).flatMap (fun i =>
    computeDCT ops
      (applyMelFilterbank ops
        (computeSpectrum ops (applyHammingWindow ops ((data.drop (i * 256)).take 512))) sr)
      numCoefficients)).take 40

/-- audioAnalysis.ts extractPitch frame count (line 32):
Math.floor ((N - 2048) / 512). -/
def numFramesPitch (n : ℕ) : ℤ :=
  ((n : ℤ) - 2048) / 512

/-- Number of frames the extractPitch loop actually runs (line 36):
i < min (numFrames, 20). -/
def pitchFramesProcessed (n : ℕ) : ℕ :=
  (min (numFramesPitch n) 20).toNat

/-- audioAnalysis.ts extractPitch (lines 26-47): per-frame autocorrelation
pitch, keeping only strictly positive estimates. -/
def extractPitch (data : List ℚ) (sr : ℚ) : List ℚ :=
  (List.range (pitchFramesProcessed data.length)).filterMap (fun i =>
    let p := autoCorrelationPitch ((data.drop (i * 512)).take 2048) sr
    if 0 < p then some p else none)

/-- audioAnalysis.ts extractFormants (lines 49-61): peaks of the spectrum of
the windowed first 512 samples, truncated by the caller to 5 values. -/
def extractFormants (ops : RealOps) (data : List ℚ) (sr : ℚ) : List ℚ :=
  (findSpectralPeaks (computeSpectrum ops (applyHammingWindow ops (data.take 512))) sr).take 5

/-- audioAnalysis.ts simulateDetection (lines 97-143).  The single
Math.random() draw is the parameter rand.  The formants feature is computed
by the source but never read by the scoring, so it is omitted here (the
computation is pure and has no effect). -/
def simulateDetection (ops : RealOps) (rand : ℚ) (data : List ℚ) (sr : ℚ) : Bool × ℚ :=
  let mfcc := extractMFCC ops data sr 13
  let pitch := extractPitch data sr
  let spectralCentroid := calculateSpectralCentroid ops data sr
  let zcr := calculateZeroCrossingRate data
  let s1 : ℚ := if 0 < pitch.length ∧ calculateVariance pitch < 100 then 0.3 else 0
  let f1 : ℕ := if 0 < pitch.length then 1 else 0
  let s2 : ℚ := if zcr < 0.05 ∨ 0.15 < zcr then 0.2 else 0
  let f2 : ℕ := if zcr < 0.05 ∨ 0.15 < zcr then 1 else 0
  let s3 : ℚ := if 4000 < spectralCentroid then 0.15 else 0
  let f3 : ℕ := if 4000 < spectralCentroid then 1 else 0
  let s4 : ℚ := if 0 < mfcc.length ∧ calculateVariance mfcc < 10 then 0.25 else 0
  let f4 : ℕ := if 0 < mfcc.length then 1 else 0
  let syntheticScore := s1 + s2 + s3 + s4 + rand * 0.3
  let factors := f1 + f2 + f3 + f4
  let confidence := min 0.95 (max 0.55 (syntheticScore / ((max factors 1 : ℕ) : ℚ)))
  (decide (0.7 < confidence), confidence)

/-- voiceCloning.ts calculateVariance (lines 1163-1167): population variance
with no empty-list guard.  This rational version is only faithful on
non-empty arrays; for an empty array the source divides 0 by 0, which is NaN
in JavaScript — that error path is modelled explicitly by
calculateVarianceJS below, and every theorem that evaluates this function on
a possibly-empty array goes through the NaN-aware definitions. -/
def calculateVarianceVC (array : List ℚ) : ℚ :=
  let mean := array.sum / (array.length : ℚ)
  ((array.map (fun v => (v - mean) ^ 2)).sum) / (array.length : ℚ)

/-- voiceCloning.ts analyzeProsodyPatterns frame count (line 658):
Math.floor ((N - 1024) / 512) + 1. -/
def prosodyNumFrames (n : ℕ) : ℤ :=
  ((n : ℤ) - 1024) / 512 + 1

/-- voiceCloning.ts analyzeProsodyPatterns (lines 652-692).  The simulated
per-frame pitch 100 + Math.random() * 100 consumes one random draw per frame,
modelled by rand i for frame i.  This rational version is only faithful on
buffers of at least 1024 samples (at least one frame); for shorter buffers
the contours are empty and the source computes NaN variances — that path is
modelled explicitly by analyzeProsodyPatternsJS below. -/
def analyzeProsodyPatterns (rand : ℕ → ℚ) (data : List ℚ) : ℚ :=
  let idxs := List.range (prosodyNumFrames data.length).toNat
  let pitchContour := idxs.map (fun i => 100 + rand i * 100)
  let energyContour := idxs.map (fun i =>
    let frame := (data.drop (i * 512)).take 1024
    ((frame.map (fun x => x * x)).sum) / (frame.length : ℚ))
  let prosodyScore := calculateVarianceVC pitchContour * 10 + calculateVarianceVC energyContour * 5
  min 1 (max 0 prosodyScore)

/-- voiceCloning.ts detectSpectralArtifacts (lines 590-594): ignores the
audio data and returns Math.random() * 0.5; r models the random draw. -/
def detectSpectralArtifacts (audioData : List ℚ) (r : ℚ) : ℚ :=
  r * 0.5

/-- voiceCloning.ts naturalness (line 1475):
(1 - spectralArtifactScore) * 0.6 + prosodyScore * 0.4. -/
def naturalnessOf (prosodyScore spectralArtifactScore : ℚ) : ℚ :=
  (1 - spectralArtifactScore) * 0.6 + prosodyScore * 0.4

/-- voiceCloning.ts is_synthetic (line 1478): naturalness < 0.65. -/
def isSyntheticOf (prosodyScore spectralArtifactScore : ℚ) : Bool :=
  decide (naturalnessOf prosodyScore spectralArtifactScore < 0.65)

/-- voiceCloning.ts confidence_score (line 1481):
min (0.95, max (0.6, abs (naturalness - 0.65) * 3 + 0.6)). -/
def confidenceOf (prosodyScore spectralArtifactScore : ℚ) : ℚ :=
  min 0.95 (max 0.6 (|naturalnessOf prosodyScore spectralArtifactScore - 0.65| * 3 + 0.6))

/-- voiceCloning.ts enhancedSyntheticVoiceDetection (lines 1454-1496),
returning (is_synthetic, confidence_score, prosodyScore,
spectralArtifactScore, naturalness).  The prosody analysis consumes one
random draw per frame (indices 0, 1, ...), after which
detectSpectralArtifacts consumes the next draw.  loadModels (lines 750-759)
only logs and touches no state used here. -/
def enhancedSyntheticVoiceDetection (rand : ℕ → ℚ) (data : List ℚ) :
    Bool × ℚ × ℚ × ℚ × ℚ :=
  let prosodyScore := analyzeProsodyPatterns rand data
  let spectralArtifactScore :=
    detectSpectralArtifacts data (rand (prosodyNumFrames data.length).toNat)
  (isSyntheticOf prosodyScore spectralArtifactScore,
   confidenceOf prosodyScore spectralArtifactScore,
   prosodyScore, spectralArtifactScore,
   naturalnessOf prosodyScore spectralArtifactScore)

/-- Decidability of the descending-order relation used by the peak sort. -/
instance : DecidableRel (fun a b : ℚ => b ≤ a) :=
  fun a b => inferInstanceAs (Decidable (b ≤ a))

instance : IsTotal ℚ (fun a b : ℚ => b ≤ a) :=
  ⟨fun a b => le_total b a⟩

instance : IsTrans ℚ (fun a b : ℚ => b ≤ a) :=
  ⟨fun _ _ _ h1 h2 => le_trans h2 h1⟩

/-- audioAnalysis.ts hzToMel (line 218) over the reals:
2595 * log10 (1 + hz / 700). -/
noncomputable def hzToMelR (hz : ℝ) : ℝ :=
  2595 * Real.logb 10 (1 + hz / 700)

/-- audioAnalysis.ts melToHz (line 219) over the reals:
700 * (10 ^ (mel / 2595) - 1). -/
noncomputable def melToHzR (mel : ℝ) : ℝ :=
  700 * ((10 : ℝ) ^ (mel / 2595) - 1)

/-- audioAnalysis.ts mel filter edge points (lines 221-229) over the reals. -/
noncomputable def melPointsR (sr : ℝ) (i : ℕ) : ℝ :=
  melToHzR (hzToMelR 0 + ((i : ℝ) / (26 + 1)) * (hzToMelR (sr / 2) - hzToMelR 0))

/-- The shared bin-to-frequency mapping (lines 231 and 292) over the reals. -/
noncomputable def binToHzR (len : ℕ) (sr : ℝ) (bin : ℕ) : ℝ :=
  (bin : ℝ) * sr / ((len : ℝ) * 2)

/-- audioAnalysis.ts triangular filter weight (lines 237-243) over the
reals. -/
noncomputable def melWeightR (sr : ℝ) (i : ℕ) (freq : ℝ) : ℝ :=
  if melPointsR sr i ≤ freq ∧ freq ≤ melPointsR sr (i + 2) then
    if freq < melPointsR sr (i + 1) then
      (freq - melPointsR sr i) / (melPointsR sr (i + 1) - melPointsR sr i)
    else
      (melPointsR sr (i + 2) - freq) / (melPointsR sr (i + 2) - melPointsR sr (i + 1))
  else 0

/-- audioAnalysis.ts per-filter weighted bin sum (lines 233-246) over the
reals. -/
noncomputable def melFilterSumR (sr : ℝ) (s : List ℝ) (i : ℕ) : ℝ :=
  ((List.range s.length).map (fun j => s.getD j 0 * melWeightR sr i (binToHzR s.length sr j))).sum

/-- audioAnalysis.ts applyMelFilterbank (lines 214-251) over the reals:
26 filters, each log (filterSum + 1e-10). -/
noncomputable def applyMelFilterbankR (sr : ℝ) (s : List ℝ) : List ℝ :=
  (List.range 26).map (fun i => Real.log (melFilterSumR sr s i + 1e-10))

/-- voiceCloning.ts calculateVariance (lines 1163-1167) with the JavaScript
NaN semantics made explicit: for an empty array both divisions are 0 / 0,
which is NaN in JavaScript (none here); for a non-empty array both divisors
are a positive length, the computation is the exact rational population
variance, and the result agrees with calculateVarianceVC. -/
def calculateVarianceJS (array : List ℚ) : Option ℚ :=
  if array.length = 0 then none else some (calculateVarianceVC array)

/-- voiceCloning.ts analyzeProsodyPatterns (lines 652-692) with the
JavaScript NaN semantics made explicit.  When the buffer has fewer than 1024
samples the frame loop runs zero times, both contours are empty, both calls
to calculateVariance return NaN, and the NaN propagates through
pitchVariance * 10 + energyVariance * 5 and through Math.max (0, _) and
Math.min (1, _) (both return NaN on a NaN argument), so the prosody score is
NaN (none).  Otherwise it is the rational prosody score of
analyzeProsodyPatterns. -/
def analyzeProsodyPatternsJS (rand : ℕ → ℚ) (data : List ℚ) : Option ℚ :=
  let idxs := List.range (prosodyNumFrames data.length).toNat
  let pitchContour := idxs.map (fun i => 100 + rand i * 100)
  let energyContour := idxs.map (fun i =>
    let frame := (data.drop (i * 512)).take 1024
    ((frame.map (fun x => x * x)).sum) / (frame.length : ℚ))
  match calculateVarianceJS pitchContour, calculateVarianceJS energyContour with
  | some pv, some ev => some (min 1 (max 0 (pv * 10 + ev * 5)))
  | _, _ => none

/-- The confidence_score of enhancedSyntheticVoiceDetection (line 1481) with
the JavaScript NaN semantics made explicit: a NaN prosody score propagates
through the naturalness blend (line 1475), through Math.abs, and through the
Math.max (0.6, _) / Math.min (0.95, _) clamp (all return NaN on a NaN
argument), so the returned confidence_score is NaN (none); with a real
prosody score it is the rational confidenceOf. -/
def enhancedConfidenceJS (rand : ℕ → ℚ) (data : List ℚ) : Option ℚ :=
  match analyzeProsodyPatternsJS rand data with
  | some p =>
      some (confidenceOf p (detectSpectralArtifacts data (rand (prosodyNumFrames data.length).toNat)))
  | none => none

/-- C1: the mel filterbank and the formant peak picker map bin i to
i * sampleRate / (2 * spectrumLength), which equals
i * sampleRate / originalFrameSize; the spectral centroid does not: its
divisor frameSize * 2 uses the time-domain frame size 2048, not the spectrum
length 1024, so at sampleRate 44100 it assigns bin 1 the frequency
44100 / 4096 instead of the claimed 44100 / 2048. -/
theorem bin_frequency_mapping_centroid_divergence :
    (∀ (len : ℕ) (sr : ℚ) (i : ℕ), binToHzQ len sr i = (i : ℚ) * sr / (2 * (len : ℚ)))
    ∧ (∀ (len : ℕ) (sr : ℚ) (i : ℕ),
        (i : ℚ) * sr / (2 * (len : ℚ)) = (i : ℚ) * sr / (((2 * len : ℕ) : ℚ)))
    ∧ centroidFrequency 44100 1 = 44100 / 4096
    ∧ centroidFrequency 44100 1 ≠ binToHzQ 1024 44100 1 := by
  refine ⟨fun len sr i => ?_, fun len sr i => ?_, ?_, ?_⟩
  · unfold binToHzQ
    ring_nf
  · push_cast
    ring_nf
  · unfold centroidFrequency
    norm_num
  · unfold centroidFrequency binToHzQ
    norm_num

/-- C2: the naturalness-blend scorer computes
naturalness = (1 - spectralArtifactScore) * 0.6 + prosodyScore * 0.4,
classifies is_synthetic exactly when naturalness < 0.65, and returns
confidence = min (0.95, max (0.6, abs (naturalness - 0.65) * 3 + 0.6));
enhancedSyntheticVoiceDetection is exactly this combination applied to its
two sub-scores. -/
theorem naturalness_blend_scoring_contract (p s : ℚ) :
    naturalnessOf p s = (1 - s) * 0.6 + p * 0.4
    ∧ (isSyntheticOf p s = true ↔ naturalnessOf p s < 0.65)
    ∧ confidenceOf p s = min 0.95 (max 0.6 (|naturalnessOf p s - 0.65| * 3 + 0.6))
    ∧ (∀ (rand : ℕ → ℚ) (data : List ℚ),
        enhancedSyntheticVoiceDetection rand data =
          (isSyntheticOf (analyzeProsodyPatterns rand data)
             (detectSpectralArtifacts data (rand (prosodyNumFrames data.length).toNat)),
           confidenceOf (analyzeProsodyPatterns rand data)
             (detectSpectralArtifacts data (rand (prosodyNumFrames data.length).toNat)),
           analyzeProsodyPatterns rand data,
           detectSpectralArtifacts data (rand (prosodyNumFrames data.length).toNat),
           naturalnessOf (analyzeProsodyPatterns rand data)
             (detectSpectralArtifacts data (rand (prosodyNumFrames data.length).toNat)))) := by
  refine ⟨rfl, by simp [isSyntheticOf], rfl, fun rand data => rfl⟩

/-- The scoring contract evaluated at prosodyScore 0.8 and
spectralArtifactScore 0.1: naturalness 0.86, not synthetic, confidence
min (0.95, max (0.6, 0.21 * 3 + 0.6)) = 0.95. -/
theorem naturalness_blend_scoring_contract_witness :
    naturalnessOf 0.8 0.1 = 0.86
    ∧ isSyntheticOf 0.8 0.1 = false
    ∧ confidenceOf 0.8 0.1 = 0.95 := by
  have h := naturalness_blend_scoring_contract 0.8 0.1
  have hn : naturalnessOf 0.8 0.1 = 0.86 := by
    rw [h.1]
    norm_num
  have ha : |(0.86 : ℚ) - 0.65| = 0.21 := by
    rw [show (0.86 : ℚ) - 0.65 = 0.21 by norm_num, abs_of_nonneg]
    norm_num
  refine ⟨hn, ?_, ?_⟩
  · have h2 := h.2.1
    rw [hn] at h2
    cases hb : isSyntheticOf 0.8 0.1
    · rfl
    · exact absurd (h2.mp hb) (by norm_num)
  · rw [h.2.2.1, hn, ha]
    rw [max_eq_right (by norm_num : (0.6 : ℚ) ≤ 0.21 * 3 + 0.6)]
    rw [min_eq_left (by norm_num : (0.95 : ℚ) ≤ 0.21 * 3 + 0.6)]

/-- The population variance of a one-element list is 0 (no empty-list guard
is needed). -/
theorem varianceVC_singleton (x : ℚ) : calculateVarianceVC [x] = 0 := by
  simp [calculateVarianceVC]

/-- On a 1024-sample buffer the prosody analysis sees exactly one frame, so
both contours are one-element lists, both variances are 0, and the prosody
score is min (1, max (0, 0)) = 0 — for every random stream. -/
theorem prosody_single_frame_zero (r : ℕ → ℚ) (data : List ℚ)
    (hlen : data.length = 1024) : analyzeProsodyPatterns r data = 0 := by
  have hf : (prosodyNumFrames 1024).toNat = 1 := by
    unfold prosodyNumFrames
    decide
  have hr1 : List.range 1 = [0] := by
    simp [List.range_succ]
  simp only [analyzeProsodyPatterns, hlen, hf, hr1, List.map_cons, List.map_nil]
  rw [varianceVC_singleton, varianceVC_singleton]
  norm_num

/-- C3 counterexample: enhancedSyntheticVoiceDetection is not reproducible
run to run.  On the same 1024-sample all-zero buffer, a run whose random
draws are all 0 yields confidence 0.75, while a run whose draws are all 0.9
yields confidence 0.95, because detectSpectralArtifacts returns a fresh
Math.random() * 0.5. -/
theorem enhanced_detection_two_runs_differ :
    (enhancedSyntheticVoiceDetection (fun _ => 0) (List.replicate 1024 0)).2.1 = 0.75
    ∧ (enhancedSyntheticVoiceDetection (fun _ => 0.9) (List.replicate 1024 0)).2.1 = 0.95
    ∧ (enhancedSyntheticVoiceDetection (fun _ => 0) (List.replicate 1024 0)).2.1 ≠
        (enhancedSyntheticVoiceDetection (fun _ => 0.9) (List.replicate 1024 0)).2.1 := by
  have hlen : (List.replicate 1024 (0 : ℚ)).length = 1024 := by
    rw [List.length_replicate]
  have e0 : (enhancedSyntheticVoiceDetection (fun _ => 0) (List.replicate 1024 0)).2.1 = 0.75 := by
    simp only [enhancedSyntheticVoiceDetection, detectSpectralArtifacts]
    rw [prosody_single_frame_zero (fun _ => 0) (List.replicate 1024 0) hlen]
    unfold confidenceOf naturalnessOf
    norm_num
    rw [abs_of_nonneg (by norm_num : (0 : ℚ) ≤ 1 / 20)]
    norm_num
  have e9 : (enhancedSyntheticVoiceDetection (fun _ => 0.9) (List.replicate 1024 0)).2.1 = 0.95 := by
    simp only [enhancedSyntheticVoiceDetection, detectSpectralArtifacts]
    rw [prosody_single_frame_zero (fun _ => 0.9) (List.replicate 1024 0) hlen]
    unfold confidenceOf naturalnessOf
    norm_num
    rw [abs_of_nonneg (by norm_num : (0 : ℚ) ≤ 8 / 25)]
    norm_num
  refine ⟨e0, e9, ?_⟩
  rw [e0, e9]
  norm_num

/-- C3 amended: the combination step is deterministic — the output of
enhancedSyntheticVoiceDetection is a function of the two sub-scores alone,
so runs whose random draws produce the same prosody score and the same
spectral-artifact draw give identical output. -/
theorem enhanced_detection_determined_by_subscores (data : List ℚ) (r1 r2 : ℕ → ℚ)
    (hp : analyzeProsodyPatterns r1 data = analyzeProsodyPatterns r2 data)
    (ha : r1 (prosodyNumFrames data.length).toNat = r2 (prosodyNumFrames data.length).toNat) :
    enhancedSyntheticVoiceDetection r1 data = enhancedSyntheticVoiceDetection r2 data := by
  simp only [enhancedSyntheticVoiceDetection, detectSpectralArtifacts, hp, ha]

/-- The determinism theorem applied to the empty buffer and two random
streams that agree on every consumed draw. -/
theorem enhanced_detection_determined_by_subscores_witness :
    enhancedSyntheticVoiceDetection (fun _ => 0) [] =
      enhancedSyntheticVoiceDetection (fun n => (n : ℚ) * 0) [] :=
  enhanced_detection_determined_by_subscores [] (fun _ => 0) (fun n => (n : ℚ) * 0)
    (by norm_num [analyzeProsodyPatterns]) (by norm_num)

/-- C4 counterexample: for a 5632-sample signal the MFCC extractor computes
numFrames = floor ((5632 - 512) / 256) = 20 but processes only
min (20, 10) = 10 frames, so the claimed frame count max (0, 20) = 20 is not
the processed count. -/
theorem mfcc_frame_count_cap_counterexample :
    mfccFramesProcessed 5632 = 10
    ∧ (max 0 (((5632 : ℤ) - 512) / 256)).toNat = 20
    ∧ mfccFramesProcessed 5632 ≠ (max 0 (((5632 : ℤ) - 512) / 256)).toNat := by
  refine ⟨by decide, by decide, by decide⟩

/-- C4 amended: the extractors process min (cap, max (0, floor ((N - F) / H)))
frames, with cap 10 for extractMFCC and cap 20 for extractPitch; in
particular when N < F zero frames are produced and both extractors return
the empty list. -/
theorem frame_counts_with_caps (ops : RealOps) (d1 d2 : List ℚ) (sr : ℚ)
    (h1 : d1.length < 512) (h2 : d2.length < 2048) :
    (∀ n : ℕ, (mfccFramesProcessed n : ℤ) = min 10 (max 0 (((n : ℤ) - 512) / 256))
      ∧ (pitchFramesProcessed n : ℤ) = min 20 (max 0 (((n : ℤ) - 2048) / 512)))
    ∧ extractMFCC ops d1 sr 13 = []
    ∧ extractPitch d1 sr = []
    ∧ extractPitch d2 sr = [] := by
  have hm : mfccFramesProcessed d1.length = 0 := by
    unfold mfccFramesProcessed numFramesMFCC
    omega
  have hp1 : pitchFramesProcessed d1.length = 0 := by
    unfold pitchFramesProcessed numFramesPitch
    omega
  have hp : pitchFramesProcessed d2.length = 0 := by
    unfold pitchFramesProcessed numFramesPitch
    omega
  refine ⟨fun n => ⟨?_, ?_⟩, ?_, ?_, ?_⟩
  · unfold mfccFramesProcessed numFramesMFCC
    omega
  · unfold pitchFramesProcessed numFramesPitch
    omega
  · simp [extractMFCC, hm]
  · simp [extractPitch, hp1]
  · simp [extractPitch, hp]

/-- The amended frame-count theorem applied to the empty buffer: both
extractors return the empty list. -/
theorem frame_counts_with_caps_witness :
    extractMFCC trivOps [] 44100 13 = [] ∧ extractPitch [] 44100 = [] := by
  have h := frame_counts_with_caps trivOps [] [] 44100 (by decide) (by decide)
  exact ⟨h.2.1, h.2.2.1⟩

/-- C5 counterexample: on the one-sample buffer [0] the heuristic variant
simulateDetection (with random draw 0) returns confidence 0.55, outside the
claimed interval [0.6, 0.95] — its lower clamp is 0.55, not 0.6. -/
theorem simulate_detection_confidence_below_claimed_range :
    (simulateDetection trivOps 0 [0] 44100).2 = 0.55
    ∧ ¬(0.6 ≤ (simulateDetection trivOps 0 [0] 44100).2) := by
  have hmfcc : extractMFCC trivOps [0] 44100 13 = [] := by
    have h : mfccFramesProcessed 1 = 0 := by
      unfold mfccFramesProcessed numFramesMFCC
      decide
    simp [extractMFCC, h]
  have hpitch : extractPitch [0] 44100 = [] := by
    have h : pitchFramesProcessed 1 = 0 := by
      unfold pitchFramesProcessed numFramesPitch
      decide
    simp [extractPitch, h]
  have hzcr : calculateZeroCrossingRate [0] = 0 := by
    simp [calculateZeroCrossingRate]
  have hlen1 : (applyHammingWindow trivOps [(0 : ℚ)]).length = 1 := by
    simp [applyHammingWindow]
  have hspec : computeSpectrum trivOps (applyHammingWindow trivOps [(0 : ℚ)]) = [] := by
    simp [computeSpectrum, hlen1]
  have hcent : calculateSpectralCentroid trivOps [0] 44100 = 0 := by
    unfold calculateSpectralCentroid
    have ht : (([0] : List ℚ)).take 2048 = [0] := by simp
    rw [ht, hspec]
    simp [centroidFromSpectrum]
  have hc : (simulateDetection trivOps 0 [0] 44100).2 = 0.55 := by
    simp only [simulateDetection, hmfcc, hpitch, hzcr, hcent]
    norm_num
  refine ⟨hc, ?_⟩
  rw [hc]
  norm_num

/-- For a buffer of at least 1024 samples the prosody contours are
non-empty, no division by zero occurs, and the NaN-aware prosody score is
exactly the rational one. -/
theorem analyzeProsodyPatternsJS_of_ge_1024 (rand : ℕ → ℚ) (data : List ℚ)
    (h : 1024 ≤ data.length) :
    analyzeProsodyPatternsJS rand data = some (analyzeProsodyPatterns rand data) := by
  have hk : (prosodyNumFrames data.length).toNat ≠ 0 := by
    unfold prosodyNumFrames
    omega
  simp only [analyzeProsodyPatternsJS, analyzeProsodyPatterns, calculateVarianceJS,
    List.length_map, List.length_range, if_neg hk]

/-- For a buffer of fewer than 1024 samples the frame loop runs zero times,
both contours are empty, and the NaN-aware prosody score is NaN. -/
theorem analyzeProsodyPatternsJS_of_lt_1024 (rand : ℕ → ℚ) (data : List ℚ)
    (h : data.length < 1024) :
    analyzeProsodyPatternsJS rand data = none := by
  have hk : (prosodyNumFrames data.length).toNat = 0 := by
    unfold prosodyNumFrames
    omega
  simp [analyzeProsodyPatternsJS, calculateVarianceJS, hk]

/-- C5 amended: every simulateDetection confidence lies in [0.55, 0.95] (its
clamp uses the lower bound 0.55).  The naturalness-blend confidence lies in
[0.6, 0.95] for every buffer of at least 1024 samples, where the rational
embedding agrees with the NaN-aware one; for every shorter buffer the source
divides 0 by 0 in calculateVariance and the NaN propagates to
confidence_score, so the confidence is NaN and satisfies no bound. -/
theorem detection_confidence_ranges (rand : ℕ → ℚ) (data : List ℚ)
    (ops : RealOps) (r : ℚ) (d2 d3 : List ℚ) (sr : ℚ)
    (hlong : 1024 ≤ data.length) (hshort : d3.length < 1024) :
    (enhancedConfidenceJS rand data = some (enhancedSyntheticVoiceDetection rand data).2.1
      ∧ 0.6 ≤ (enhancedSyntheticVoiceDetection rand data).2.1
      ∧ (enhancedSyntheticVoiceDetection rand data).2.1 ≤ 0.95)
    ∧ enhancedConfidenceJS rand d3 = none
    ∧ (0.55 ≤ (simulateDetection ops r d2 sr).2
      ∧ (simulateDetection ops r d2 sr).2 ≤ 0.95) := by
  refine ⟨⟨?_, ?_, ?_⟩, ?_, ?_, ?_⟩
  · unfold enhancedConfidenceJS
    rw [analyzeProsodyPatternsJS_of_ge_1024 rand data hlong]
    rfl
  · simp only [enhancedSyntheticVoiceDetection, confidenceOf]
    exact le_min (by norm_num) (le_max_left _ _)
  · simp only [enhancedSyntheticVoiceDetection, confidenceOf]
    exact min_le_left _ _
  · unfold enhancedConfidenceJS
    rw [analyzeProsodyPatternsJS_of_lt_1024 rand d3 hshort]
  · simp only [simulateDetection]
    exact le_min (by norm_num) (le_max_left _ _)
  · simp only [simulateDetection]
    exact min_le_left _ _

/-- The confidence-range theorem applied to a 1024-sample all-zero buffer
(prosody defined, confidence in range), the empty buffer (confidence NaN),
and the one-sample buffer for the simulateDetection bounds. -/
theorem detection_confidence_ranges_witness :
    (enhancedConfidenceJS (fun _ => 0) (List.replicate 1024 0)
        = some (enhancedSyntheticVoiceDetection (fun _ => 0) (List.replicate 1024 0)).2.1
      ∧ 0.6 ≤ (enhancedSyntheticVoiceDetection (fun _ => 0) (List.replicate 1024 0)).2.1
      ∧ (enhancedSyntheticVoiceDetection (fun _ => 0) (List.replicate 1024 0)).2.1 ≤ 0.95)
    ∧ enhancedConfidenceJS (fun _ => 0) [] = none
    ∧ (0.55 ≤ (simulateDetection trivOps 0 [0] 44100).2
      ∧ (simulateDetection trivOps 0 [0] 44100).2 ≤ 0.95) :=
  detection_confidence_ranges (fun _ => 0) (List.replicate 1024 0) trivOps 0 [0] [] 44100
    (by norm_num [List.length_replicate]) (by norm_num)

/-- C6: every value returned by the formant path lies strictly inside
(200, 5000) Hz and is the frequency of a strict interior local maximum of
the spectrum; the list is sorted in descending order and has at most 5
elements; the peak finder itself does not truncate — extractFormants is
exactly the peak list truncated to its first 5 elements by the caller. -/
theorem formant_peaks_band_sorted_truncated (s : List ℚ) (sr : ℚ) :
    (∀ f ∈ (findSpectralPeaks s sr).take 5,
      200 < f ∧ f < 5000 ∧
      ∃ i : ℕ, 0 < i ∧ i + 1 < s.length ∧
        s.getD (i - 1) 0 < s.getD i 0 ∧ s.getD (i + 1) 0 < s.getD i 0 ∧
        f = binToHzQ s.length sr i)
    ∧ ((findSpectralPeaks s sr).take 5).Sorted (fun a b => b ≤ a)
    ∧ ((findSpectralPeaks s sr).take 5).length ≤ 5
    ∧ (∀ (ops : RealOps) (data : List ℚ),
        extractFormants ops data sr =
          (findSpectralPeaks (computeSpectrum ops (applyHammingWindow ops (data.take 512))) sr).take 5) := by
  refine ⟨?_, ?_, ?_, fun ops data => rfl⟩
  · intro f hf
    have hf' : f ∈ findSpectralPeaks s sr := List.take_subset 5 _ hf
    unfold findSpectralPeaks at hf'
    have hmem := (List.perm_insertionSort _ _).mem_iff.mp hf'
    rw [List.mem_filter] at hmem
    obtain ⟨hmap, hband⟩ := hmem
    rw [List.mem_map] at hmap
    obtain ⟨i, hi, hfi⟩ := hmap
    rw [List.mem_filter] at hi
    obtain ⟨_, hpeak⟩ := hi
    have hp := of_decide_eq_true hpeak
    have hb := of_decide_eq_true hband
    exact ⟨hb.1, hb.2, i, hp.1, hp.2.1, hp.2.2.1, hp.2.2.2, hfi.symm⟩
  · exact List.Pairwise.sublist (List.take_sublist 5 _) (List.sorted_insertionSort _ _)
  · rw [List.length_take]
    exact min_le_left _ _

/-- The formant theorem applied to the concrete spectrum [0, 5, 0, 1] with
sample rate 2000 (bin 1 is a strict local maximum at 250 Hz). -/
theorem formant_peaks_band_sorted_truncated_witness :
    (∀ f ∈ (findSpectralPeaks [0, 5, 0, 1] 2000).take 5,
      200 < f ∧ f < 5000 ∧
      ∃ i : ℕ, 0 < i ∧ i + 1 < ([0, 5, 0, 1] : List ℚ).length ∧
        ([0, 5, 0, 1] : List ℚ).getD (i - 1) 0 < ([0, 5, 0, 1] : List ℚ).getD i 0 ∧
        ([0, 5, 0, 1] : List ℚ).getD (i + 1) 0 < ([0, 5, 0, 1] : List ℚ).getD i 0 ∧
        f = binToHzQ ([0, 5, 0, 1] : List ℚ).length 2000 i)
    ∧ ((findSpectralPeaks [0, 5, 0, 1] 2000).take 5).Sorted (fun a b => b ≤ a)
    ∧ ((findSpectralPeaks [0, 5, 0, 1] 2000).take 5).length ≤ 5 := by
  have h := formant_peaks_band_sorted_truncated [0, 5, 0, 1] 2000
  exact ⟨h.1, h.2.1, h.2.2.1⟩

/-- If no lag in the list beats the running maximum, the correlation fold
leaves its state unchanged. -/
theorem corr_fold_of_all_le (frame : List ℚ) (L : List ℕ) (st : ℚ × ℕ)
    (h : ∀ lag ∈ L, corrAt frame lag ≤ st.1) :
    L.foldl (fun st lag => if st.1 < corrAt frame lag then (corrAt frame lag, lag) else st) st
      = st := by
  induction L generalizing st with
  | nil => rfl
  | cons a T ih =>
    have ha : corrAt frame a ≤ st.1 := h a (List.mem_cons_self a T)
    rw [List.foldl_cons, if_neg (not_lt.mpr ha)]
    exact ih st (fun lag hl => h lag (List.mem_cons_of_mem a hl))

/-- The bestLag component of the correlation fold is either the initial one
or an element of the visited lag list. -/
theorem corr_fold_snd_cases (frame : List ℚ) (L : List ℕ) (st : ℚ × ℕ) :
    (L.foldl (fun st lag => if st.1 < corrAt frame lag then (corrAt frame lag, lag) else st) st).2
        = st.2
    ∨ (L.foldl (fun st lag => if st.1 < corrAt frame lag then (corrAt frame lag, lag) else st) st).2
        ∈ L := by
  induction L generalizing st with
  | nil => exact Or.inl rfl
  | cons a T ih =>
    rw [List.foldl_cons]
    by_cases hc : st.1 < corrAt frame a
    · rw [if_pos hc]
      rcases ih (corrAt frame a, a) with h | h
      · exact Or.inr (h ▸ List.mem_cons_self a T)
      · exact Or.inr (List.mem_cons_of_mem a h)
    · rw [if_neg hc]
      rcases ih st with h | h
      · exact Or.inl h
      · exact Or.inr (List.mem_cons_of_mem a h)

/-- If some lag in the list beats the running maximum, the final bestLag is
an element of the lag list. -/
theorem corr_fold_snd_mem (frame : List ℚ) (L : List ℕ) (st : ℚ × ℕ)
    (h : ∃ lag ∈ L, st.1 < corrAt frame lag) :
    (L.foldl (fun st lag => if st.1 < corrAt frame lag then (corrAt frame lag, lag) else st) st).2
      ∈ L := by
  induction L generalizing st with
  | nil =>
    obtain ⟨lag, h1, _⟩ := h
    exact absurd h1 (List.not_mem_nil lag)
  | cons a T ih =>
    rw [List.foldl_cons]
    by_cases hc : st.1 < corrAt frame a
    · rw [if_pos hc]
      rcases corr_fold_snd_cases frame T (corrAt frame a, a) with h2 | h2
      · exact h2 ▸ List.mem_cons_self a T
      · exact List.mem_cons_of_mem a h2
    · rw [if_neg hc]
      obtain ⟨lag, hlag, hlt⟩ := h
      rcases List.mem_cons.mp hlag with rfl | hT
      · exact absurd hlt hc
      · exact List.mem_cons_of_mem a (ih st ⟨lag, hT, hlt⟩)

/-- C7: both degenerate divisions resolve to the sentinel 0.  For any frame
and sample rate at least 500 Hz (so the lag search starts at a lag of at
least 1), autoCorrelationPitch returns sampleRate / bestLag when some lag in
the search range attains positive correlation and 0 (with zero bestLag)
otherwise; and the spectral centroid of any spectrum with zero total
magnitude is 0 rather than a division by zero. -/
theorem degenerate_divisions_resolve_to_zero (frame : List ℚ) (sr : ℚ)
    (hsr : 500 ≤ sr) (s : List ℚ) (sr2 : ℚ)
    (hs : ((List.range s.length).map (fun i => s.getD i 0)).sum = 0) :
    ((0 < bestLagOf frame sr
        ∧ autoCorrelationPitch frame sr = sr / (bestLagOf frame sr : ℚ)
        ∧ ∃ lag ∈ lagList frame sr, 0 < corrAt frame lag)
      ∨ (bestLagOf frame sr = 0
        ∧ autoCorrelationPitch frame sr = 0
        ∧ ∀ lag ∈ lagList frame sr, corrAt frame lag ≤ 0))
    ∧ centroidFromSpectrum s sr2 = 0 := by
  constructor
  · by_cases hex : ∃ lag ∈ lagList frame sr, 0 < corrAt frame lag
    · left
      have hmem : bestLagOf frame sr ∈ lagList frame sr := by
        unfold bestLagOf pitchFold
        exact corr_fold_snd_mem frame _ (0, 0) hex
      have hpos : 0 < bestLagOf frame sr := by
        have h1 : (1 : ℤ) ≤ ⌊sr / 500⌋ := by
          rw [Int.le_floor]
          push_cast
          linarith
        unfold lagList at hmem
        rw [List.mem_filter] at hmem
        have h2 := (of_decide_eq_true hmem.2).1
        have h3 : (1 : ℤ) ≤ (bestLagOf frame sr : ℤ) := le_trans h1 h2
        have h4 : 1 ≤ bestLagOf frame sr := by exact_mod_cast h3
        omega
      refine ⟨hpos, ?_, hex⟩
      unfold autoCorrelationPitch
      rw [if_pos hpos]
    · right
      push_neg at hex
      have hz : pitchFold frame sr = (0, 0) := by
        unfold pitchFold
        exact corr_fold_of_all_le frame _ (0, 0) (fun lag hl => hex lag hl)
      have hb : bestLagOf frame sr = 0 := by
        unfold bestLagOf
        rw [hz]
      refine ⟨hb, ?_, hex⟩
      unfold autoCorrelationPitch
      rw [hb]
      simp
  · simp only [centroidFromSpectrum]
    rw [hs]
    simp

/-- The degenerate-division theorem applied to the frame [1, 1, 1, 1] at
sample rate 500 and to the all-zero spectrum [0, 0]. -/
theorem degenerate_divisions_resolve_to_zero_witness :
    ((0 < bestLagOf [1, 1, 1, 1] 500
        ∧ autoCorrelationPitch [1, 1, 1, 1] 500 = 500 / (bestLagOf [1, 1, 1, 1] 500 : ℚ)
        ∧ ∃ lag ∈ lagList [1, 1, 1, 1] 500, 0 < corrAt [1, 1, 1, 1] lag)
      ∨ (bestLagOf [1, 1, 1, 1] 500 = 0
        ∧ autoCorrelationPitch [1, 1, 1, 1] 500 = 0
        ∧ ∀ lag ∈ lagList [1, 1, 1, 1] 500, corrAt [1, 1, 1, 1] lag ≤ 0))
    ∧ centroidFromSpectrum [0, 0] 44100 = 0 :=
  degenerate_divisions_resolve_to_zero [1, 1, 1, 1] 500 (by norm_num) [0, 0] 44100
    (by simp [List.range_succ])

/-- C9: extractPitch analyses at most the first 20 frames — its output has
at most 20 entries for every input, and the output depends only on the first
12288 samples (enough to cover frames 0 through 19). -/
theorem extractPitch_at_most_20_frames (data : List ℚ) (sr : ℚ) :
    (extractPitch data sr).length ≤ 20
    ∧ extractPitch data sr = extractPitch (data.take 12288) sr := by
  constructor
  · unfold extractPitch
    have h1 := List.length_filterMap_le
      (fun i =>
        let p := autoCorrelationPitch ((data.drop (i * 512)).take 2048) sr
        if 0 < p then some p else none)
      (List.range (pitchFramesProcessed data.length))
    have h2 : pitchFramesProcessed data.length ≤ 20 := by
      unfold pitchFramesProcessed
      omega
    calc (List.filterMap _ _).length
        ≤ (List.range (pitchFramesProcessed data.length)).length := h1
      _ = pitchFramesProcessed data.length := List.length_range _
      _ ≤ 20 := h2
  · by_cases hN : data.length ≤ 12288
    · rw [List.take_of_length_le hN]
    · have hl : (data.take 12288).length = 12288 := by
        rw [List.length_take]
        omega
      have h1 : pitchFramesProcessed data.length = 20 := by
        unfold pitchFramesProcessed numFramesPitch
        omega
      have h2 : pitchFramesProcessed (data.take 12288).length = 20 := by
        rw [hl]
        unfold pitchFramesProcessed numFramesPitch
        decide
      unfold extractPitch
      rw [h1, h2]
      apply List.filterMap_congr
      intro i hi
      have hi' : i < 20 := List.mem_range.mp hi
      have hframe : ((data.take 12288).drop (i * 512)).take 2048
          = (data.drop (i * 512)).take 2048 := by
        rw [List.drop_take, List.take_take]
        congr 1
        omega
      rw [hframe]

/-- C10: extractFormants reads only the first 512 samples of channel 0 —
two buffers with the same sample rate agreeing on indices 0 through 511
yield identical formant lists. -/
theorem extractFormants_depends_on_first_512 (ops : RealOps) (d1 d2 : List ℚ) (sr : ℚ)
    (h : d1.take 512 = d2.take 512) :
    extractFormants ops d1 sr = extractFormants ops d2 sr := by
  unfold extractFormants
  rw [h]

/-- The prefix-dependence theorem applied to two all-zero buffers of lengths
600 and 700 that agree on their first 512 samples. -/
theorem extractFormants_depends_on_first_512_witness :
    extractFormants trivOps (List.replicate 600 0) 44100 =
      extractFormants trivOps (List.replicate 700 0) 44100 :=
  extractFormants_depends_on_first_512 trivOps (List.replicate 600 0) (List.replicate 700 0)
    44100 (by rw [List.take_replicate, List.take_replicate]; norm_num)

/-- The lowest mel edge is 0: hzToMel 0 = 2595 * log10 1 = 0. -/
theorem hzToMelR_zero : hzToMelR 0 = 0 := by
  unfold hzToMelR
  norm_num [Real.logb_one]

/-- melToHz is monotone (10 ^ x is monotone in x). -/
theorem melToHzR_mono : Monotone melToHzR := by
  intro a b hab
  unfold melToHzR
  have h : (10 : ℝ) ^ (a / 2595) ≤ (10 : ℝ) ^ (b / 2595) := by
    rw [Real.rpow_le_rpow_left_iff (by norm_num : (1 : ℝ) < 10)]
    linarith
  linarith

/-- For a nonnegative sample rate the mel filter edge points are monotone in
the edge index. -/
theorem melPointsR_mono (sr : ℝ) (hsr : 0 ≤ sr) : Monotone (melPointsR sr) := by
  intro a b hab
  unfold melPointsR
  apply melToHzR_mono
  have hM : 0 ≤ hzToMelR (sr / 2) - hzToMelR 0 := by
    rw [hzToMelR_zero]
    unfold hzToMelR
    have h10 : (0 : ℝ) ≤ Real.logb 10 (1 + sr / 2 / 700) :=
      Real.logb_nonneg (by norm_num) (by linarith)
    linarith
  have hc : ((a : ℝ) / (26 + 1)) ≤ ((b : ℝ) / (26 + 1)) := by
    apply div_le_div_of_nonneg_right ?_ (by norm_num)
    exact_mod_cast hab
  exact add_le_add_left (mul_le_mul_of_nonneg_right hc hM) _

/-- Triangular mel weights are nonnegative for a nonnegative sample rate. -/
theorem melWeightR_nonneg (sr : ℝ) (hsr : 0 ≤ sr) (i : ℕ) (freq : ℝ) :
    0 ≤ melWeightR sr i freq := by
  unfold melWeightR
  split_ifs with h1 h2
  · apply div_nonneg
    · linarith [h1.1]
    · have hm := melPointsR_mono sr hsr (Nat.le_succ i)
      linarith
  · apply div_nonneg
    · linarith [h1.2]
    · have hm := melPointsR_mono sr hsr (Nat.le_succ (i + 1))
      linarith
  · exact le_refl 0

/-- Entries read with default 0 from a list of nonnegative reals are
nonnegative. -/
theorem getD_nonneg_of_forall (s : List ℝ) (hs : ∀ x ∈ s, 0 ≤ x) (j : ℕ) :
    0 ≤ s.getD j 0 := by
  rw [List.getD_eq_getD_get?]
  rcases h : s.get? j with _ | a
  · simp
  · simpa using hs a (List.get?_mem h)

/-- Each mel filter sum is nonnegative on a nonnegative spectrum. -/
theorem melFilterSumR_nonneg (sr : ℝ) (hsr : 0 ≤ sr) (s : List ℝ)
    (hs : ∀ x ∈ s, 0 ≤ x) (i : ℕ) : 0 ≤ melFilterSumR sr s i := by
  unfold melFilterSumR
  apply List.sum_nonneg
  intro x hx
  rw [List.mem_map] at hx
  obtain ⟨j, _, rfl⟩ := hx
  exact mul_nonneg (getD_nonneg_of_forall s hs j) (melWeightR_nonneg sr hsr i _)

/-- Adding a nonnegative delta to one spectral bin does not decrease any mel
filter sum. -/
theorem melFilterSumR_le_set (sr : ℝ) (hsr : 0 ≤ sr) (s : List ℝ)
    (j : ℕ) (δ : ℝ) (hδ : 0 ≤ δ) (i : ℕ) :
    melFilterSumR sr s i ≤ melFilterSumR sr (s.set j (s.getD j 0 + δ)) i := by
  unfold melFilterSumR
  rw [List.length_set]
  apply List.sum_le_sum
  intro k _
  by_cases hkj : k = j
  · subst hkj
    by_cases hjl : k < s.length
    · have hset : (s.set k (s.getD k 0 + δ)).getD k 0 = s.getD k 0 + δ := by
        rw [List.getD_eq_getD_get?, List.get?_set_eq, List.get?_eq_get hjl]
        rfl
      rw [hset]
      exact mul_le_mul_of_nonneg_right (by linarith)
        (melWeightR_nonneg sr hsr i (binToHzR s.length sr k))
    · have hset : s.set k (s.getD k 0 + δ) = s :=
        List.set_eq_of_length_le (le_of_not_lt hjl)
      rw [hset]
  · have hset : (s.set j (s.getD j 0 + δ)).getD k 0 = s.getD k 0 := by
      rw [List.getD_eq_getD_get?, List.get?_set_ne _ _ (fun h => hkj h.symm),
        ← List.getD_eq_getD_get?]
    rw [hset]

/-- C8: the mel filterbank is monotone in each bin — for a positive sample
rate, a spectrum of nonnegative magnitudes, any bin j and any delta >= 0,
replacing s[j] by s[j] + delta does not decrease any of the 26 filter
outputs (triangular weights are nonnegative because the mel edge points are
monotone, the per-filter sum is non-decreasing, and log of the floored sum
is monotone). -/
theorem mel_filterbank_monotone_per_bin (sr : ℝ) (hsr : 0 ≤ sr) (s : List ℝ)
    (hs : ∀ x ∈ s, 0 ≤ x) (j : ℕ) (δ : ℝ) (hδ : 0 ≤ δ) (i : ℕ) (hi : i < 26) :
    (applyMelFilterbankR sr s).getD i 0
      ≤ (applyMelFilterbankR sr (s.set j (s.getD j 0 + δ))).getD i 0 := by
  have hmap : ∀ (t : List ℝ), (applyMelFilterbankR sr t).getD i 0
      = Real.log (melFilterSumR sr t i + 1e-10) := by
    intro t
    unfold applyMelFilterbankR
    rw [List.getD_eq_getD_get?, List.get?_map, List.get?_range hi]
    rfl
  rw [hmap s, hmap (s.set j (s.getD j 0 + δ))]
  have h1 : 0 ≤ melFilterSumR sr s i := melFilterSumR_nonneg sr hsr s hs i
  have h2 : melFilterSumR sr s i ≤ melFilterSumR sr (s.set j (s.getD j 0 + δ)) i :=
    melFilterSumR_le_set sr hsr s j δ hδ i
  have hfloor : (0 : ℝ) < 1e-10 := by norm_num
  exact Real.log_le_log (by linarith) (by linarith)

/-- The monotonicity theorem applied at sample rate 44100 to the spectrum
[1] with delta 0 at bin 0 and filter 0. -/
theorem mel_filterbank_monotone_per_bin_witness :
    (applyMelFilterbankR 44100 [1]).getD 0 0
      ≤ (applyMelFilterbankR 44100 (([1] : List ℝ).set 0
          ((([1] : List ℝ).getD 0 0) + 0))).getD 0 0 :=
  mel_filterbank_monotone_per_bin 44100 (by norm_num) [1]
    (by intro x hx; rw [List.mem_singleton] at hx; rw [hx]; norm_num)
    0 0 (by norm_num) 0 (by norm_num)
